import Mathlib

/-!
Verification of the LFVM bytecode translator, translation cache, gas model and
hash cache of the go-ethereum-substate repository.

The Go sources are shallowly embedded: byte slices become `List Nat` (each
entry a byte value, kept below 256 by the Go `[]byte` type), machine integers become
`Nat` with explicit `% 2 ^ w` at the points where Go performs a narrowing
conversion, Go maps become association lists, and fallible code returns an
explicit result type.
-/

set_option maxRecDepth 10000

/-!
## Long-form opcodes

The numeric values of the long-form opcode enumeration live in a file that is
not part of the analysed sources (only its users are). Modelled from the spec:
the opcode set is "baseline EVM opcodes plus auxiliary opcodes and
super-instructions"; base opcodes keep their canonical EVM byte values (the gas
code relies on the contiguous ranges PUSH1..PUSH32, DUP1..DUP16, SWAP1..SWAP16,
LT..SAR and COINBASE..CHAINID, and the converter computes PUSH1 + (k-1)), and
the auxiliary and super-instruction opcodes are placed in the unused byte range
0xb0..0xc6.  No claim depends on the concrete values chosen for the latter.
-/

namespace Op

def STOP : Nat := 0x00
def ADD : Nat := 0x01
def MUL : Nat := 0x02
def SUB : Nat := 0x03
def DIV : Nat := 0x04
def SDIV : Nat := 0x05
def MOD : Nat := 0x06
def SMOD : Nat := 0x07
def ADDMOD : Nat := 0x08
def MULMOD : Nat := 0x09
def EXP : Nat := 0x0a
def SIGNEXTEND : Nat := 0x0b
def LT : Nat := 0x10
def GT : Nat := 0x11
def SLT : Nat := 0x12
def SGT : Nat := 0x13
def EQ : Nat := 0x14
def ISZERO : Nat := 0x15
def AND : Nat := 0x16
def OR : Nat := 0x17
def XOR : Nat := 0x18
def NOT : Nat := 0x19
def BYTE : Nat := 0x1a
def SHL : Nat := 0x1b
def SHR : Nat := 0x1c
def SAR : Nat := 0x1d
def SHA3 : Nat := 0x20
def ADDRESS : Nat := 0x30
def BALANCE : Nat := 0x31
def ORIGIN : Nat := 0x32
def CALLER : Nat := 0x33
def CALLVALUE : Nat := 0x34
def CALLDATALOAD : Nat := 0x35
def CALLDATASIZE : Nat := 0x36
def CALLDATACOPY : Nat := 0x37
def CODESIZE : Nat := 0x38
def CODECOPY : Nat := 0x39
def GASPRICE : Nat := 0x3a
def EXTCODESIZE : Nat := 0x3b
def EXTCODECOPY : Nat := 0x3c
def RETURNDATASIZE : Nat := 0x3d
def RETURNDATACOPY : Nat := 0x3e
def EXTCODEHASH : Nat := 0x3f
def BLOCKHASH : Nat := 0x40
def COINBASE : Nat := 0x41
def TIMESTAMP : Nat := 0x42
def NUMBER : Nat := 0x43
def DIFFICULTY : Nat := 0x44
def GASLIMIT : Nat := 0x45
def CHAINID : Nat := 0x46
def SELFBALANCE : Nat := 0x47
def BASEFEE : Nat := 0x48
def POP : Nat := 0x50
def MLOAD : Nat := 0x51
def MSTORE : Nat := 0x52
def MSTORE8 : Nat := 0x53
def SLOAD : Nat := 0x54
def SSTORE : Nat := 0x55
def JUMP : Nat := 0x56
def JUMPI : Nat := 0x57
def PC : Nat := 0x58
def MSIZE : Nat := 0x59
def GAS : Nat := 0x5a
def JUMPDEST : Nat := 0x5b
def PUSH1 : Nat := 0x60
def PUSH2 : Nat := 0x61
def PUSH4 : Nat := 0x63
def PUSH32 : Nat := 0x7f
def DUP1 : Nat := 0x80
def DUP2 : Nat := 0x81
def DUP3 : Nat := 0x82
def DUP16 : Nat := 0x8f
def SWAP1 : Nat := 0x90
def SWAP2 : Nat := 0x91
def SWAP16 : Nat := 0x9f
def LOG0 : Nat := 0xa0
def LOG1 : Nat := 0xa1
def LOG2 : Nat := 0xa2
def LOG3 : Nat := 0xa3
def LOG4 : Nat := 0xa4
def CREATE : Nat := 0xf0
def CALL : Nat := 0xf1
def CALLCODE : Nat := 0xf2
def RETURN : Nat := 0xf3
def DELEGATECALL : Nat := 0xf4
def CREATE2 : Nat := 0xf5
def STATICCALL : Nat := 0xfa
def REVERT : Nat := 0xfd
def INVALID : Nat := 0xfe
def SELFDESTRUCT : Nat := 0xff

def NOOP : Nat := 0xb0
def JUMP_TO : Nat := 0xb1
def DATA : Nat := 0xb2
def POP_POP : Nat := 0xb3
def POP_JUMP : Nat := 0xb4
def SWAP1_POP : Nat := 0xb5
def SWAP2_POP : Nat := 0xb6
def SWAP2_SWAP1 : Nat := 0xb7
def DUP2_MSTORE : Nat := 0xb8
def DUP2_LT : Nat := 0xb9
def PUSH1_ADD : Nat := 0xba
def PUSH1_SHL : Nat := 0xbb
def PUSH1_DUP1 : Nat := 0xbc
def PUSH1_PUSH1 : Nat := 0xbd
def PUSH2_JUMP : Nat := 0xbe
def PUSH2_JUMPI : Nat := 0xbf
def ISZERO_PUSH2_JUMPI : Nat := 0xc0
def PUSH1_PUSH4_DUP3 : Nat := 0xc1
def SWAP2_SWAP1_POP_JUMP : Nat := 0xc2
def SWAP1_POP_SWAP2_SWAP1 : Nat := 0xc3
def POP_SWAP2_SWAP1_POP : Nat := 0xc4
def AND_SWAP1_POP_SWAP2_SWAP1 : Nat := 0xc5
def PUSH1_PUSH1_PUSH1_SHL_SUB : Nat := 0xc6

end Op

/-!
## EVM (source) opcodes

Byte values of the go-ethereum `vm.OpCode` constants the converter matches
against.  These are the canonical EVM opcode bytes.
-/

namespace Vm

def ADD : Nat := 0x01
def SUB : Nat := 0x03
def ISZERO : Nat := 0x15
def AND : Nat := 0x16
def SHL : Nat := 0x1b
def POP : Nat := 0x50
def MSTORE : Nat := 0x52
def JUMP : Nat := 0x56
def JUMPI : Nat := 0x57
def PC : Nat := 0x58
def JUMPDEST : Nat := 0x5b
def PUSH1 : Nat := 0x60
def PUSH2 : Nat := 0x61
def PUSH4 : Nat := 0x63
def PUSH32 : Nat := 0x7f
def DUP1 : Nat := 0x80
def DUP2 : Nat := 0x81
def DUP3 : Nat := 0x82
def LT : Nat := 0x10
def SWAP1 : Nat := 0x90
def SWAP2 : Nat := 0x91

end Vm

/-- The encoding of each instruction for the MACRO EVM: an 8-bit opcode and a
16-bit argument (`instruction.go`). -/
structure Instruction where
  opcode : Nat
  arg : Nat
deriving DecidableEq, Repr

/-- Code for the macro EVM is a slice of instructions. -/
abbrev Code := List Instruction

/-- Result of a call to `toInstructions`: `some (instructions, inc)` on normal
return, `none` when the Go code panics (the `PC` position check).  The Go
signature also carries an `error`, but the only producer `toInstruction`
always returns a `nil` error, so no error case is needed. -/
abbrev ToInstrResult := Option (Code × Nat)

/-- The opcode translation array built by `createOpToOpMap` in `converter.go`:
every listed EVM opcode maps to its long-form equivalent, everything else is
`INVALID`. -/
def op_2_op (b : Nat) : Nat :=
  if b = 0x50 then Op.POP
  else if 0x80 ≤ b ∧ b ≤ 0x8f then Op.DUP1 + (b - 0x80)
  else if 0x90 ≤ b ∧ b ≤ 0x9f then Op.SWAP1 + (b - 0x90)
  else if b = 0x51 then Op.MLOAD
  else if b = 0x52 then Op.MSTORE
  else if b = 0x53 then Op.MSTORE8
  else if b = 0x59 then Op.MSIZE
  else if b = 0x54 then Op.SLOAD
  else if b = 0x55 then Op.SSTORE
  else if b = 0x56 then Op.JUMP
  else if b = 0x57 then Op.JUMPI
  else if b = 0x5b then Op.JUMPDEST
  else if b = 0x00 then Op.STOP
  else if b = 0xf3 then Op.RETURN
  else if b = 0xfd then Op.REVERT
  else if b = 0xfe then Op.INVALID
  else if b = 0x58 then Op.PC
  else if b = 0x01 then Op.ADD
  else if b = 0x02 then Op.MUL
  else if b = 0x03 then Op.SUB
  else if b = 0x04 then Op.DIV
  else if b = 0x05 then Op.SDIV
  else if b = 0x06 then Op.MOD
  else if b = 0x07 then Op.SMOD
  else if b = 0x08 then Op.ADDMOD
  else if b = 0x09 then Op.MULMOD
  else if b = 0x0a then Op.EXP
  else if b = 0x0b then Op.SIGNEXTEND
  else if b = 0x20 then Op.SHA3
  else if b = 0x10 then Op.LT
  else if b = 0x11 then Op.GT
  else if b = 0x12 then Op.SLT
  else if b = 0x13 then Op.SGT
  else if b = 0x14 then Op.EQ
  else if b = 0x15 then Op.ISZERO
  else if b = 0x16 then Op.AND
  else if b = 0x17 then Op.OR
  else if b = 0x18 then Op.XOR
  else if b = 0x19 then Op.NOT
  else if b = 0x1a then Op.BYTE
  else if b = 0x1b then Op.SHL
  else if b = 0x1c then Op.SHR
  else if b = 0x1d then Op.SAR
  else if b = 0x30 then Op.ADDRESS
  else if b = 0x31 then Op.BALANCE
  else if b = 0x32 then Op.ORIGIN
  else if b = 0x33 then Op.CALLER
  else if b = 0x34 then Op.CALLVALUE
  else if b = 0x35 then Op.CALLDATALOAD
  else if b = 0x36 then Op.CALLDATASIZE
  else if b = 0x37 then Op.CALLDATACOPY
  else if b = 0x38 then Op.CODESIZE
  else if b = 0x39 then Op.CODECOPY
  else if b = 0x5a then Op.GAS
  else if b = 0x3a then Op.GASPRICE
  else if b = 0x3b then Op.EXTCODESIZE
  else if b = 0x3c then Op.EXTCODECOPY
  else if b = 0x3d then Op.RETURNDATASIZE
  else if b = 0x3e then Op.RETURNDATACOPY
  else if b = 0x3f then Op.EXTCODEHASH
  else if b = 0xf0 then Op.CREATE
  else if b = 0xf1 then Op.CALL
  else if b = 0xf2 then Op.CALLCODE
  else if b = 0xf4 then Op.DELEGATECALL
  else if b = 0xf5 then Op.CREATE2
  else if b = 0xfa then Op.STATICCALL
  else if b = 0xff then Op.SELFDESTRUCT
  else if b = 0x40 then Op.BLOCKHASH
  else if b = 0x41 then Op.COINBASE
  else if b = 0x42 then Op.TIMESTAMP
  else if b = 0x43 then Op.NUMBER
  else if b = 0x44 then Op.DIFFICULTY
  else if b = 0x45 then Op.GASLIMIT
  else if b = 0x46 then Op.CHAINID
  else if b = 0x47 then Op.SELFBALANCE
  else if b = 0x48 then Op.BASEFEE
  else if b = 0xa0 then Op.LOG0
  else if b = 0xa1 then Op.LOG1
  else if b = 0xa2 then Op.LOG2
  else if b = 0xa3 then Op.LOG3
  else if b = 0xa4 then Op.LOG4
  else Op.INVALID

/-- Byte at offset `i` of the source byte slice.  All reads in the embedded
functions are guarded by explicit length checks exactly as in the Go code, so
the default value is never observed on the guarded paths. -/
def byteAt (code : List Nat) (i : Nat) : Nat := code.getD i 0

/-- Instruction sequence emitted for a `PUSHn` whose immediates fit
(`toInstructions` in `converter.go`, lines 228-243): slot 0 carries the opcode
`PUSH1 + (n-1)` and the first two immediate bytes, every further slot is a
`DATA` instruction holding the next two bytes; for odd `n` the final slot is
overwritten with the single remaining byte shifted left by 8. -/
def pushInstructions (pos n : Nat) (code : List Nat) : Code :=
  (List.range (n / 2 + n % 2)).map (fun j =>
    { opcode := if j = 0 then Op.PUSH1 + (n - 1) else Op.DATA
      arg :=
        if n % 2 = 1 ∧ j = n / 2 then byteAt code (pos + n) * 256
        else byteAt code (pos + 2 * j + 1) * 256 + byteAt code (pos + 2 * j + 2) })

/-- Translation of the source instruction starting at byte `pos`
(`toInstructions` in `converter.go`).  The Go function is a chain of early
returns; each pattern guard `len(code) > pos+k` is folded into the condition of
the corresponding branch.  Returns `none` where the Go code panics. -/
def toInstructions (pos : Nat) (code : List Nat) (with_super_instructions : Bool) :
    ToInstrResult :=
  let op := fun j => byteAt code (pos + j)
  if with_super_instructions ∧ pos + 7 < code.length ∧
      op 0 = Vm.PUSH1 ∧ op 2 = Vm.PUSH4 ∧ op 7 = Vm.DUP3 then
    some ([{ opcode := Op.PUSH1_PUSH4_DUP3, arg := op 1 },
           { opcode := Op.DATA, arg := op 3 * 256 + op 4 },
           { opcode := Op.DATA, arg := op 5 * 256 + op 6 }], 7)
  else if with_super_instructions ∧ pos + 7 < code.length ∧
      op 0 = Vm.PUSH1 ∧ op 2 = Vm.PUSH1 ∧ op 4 = Vm.PUSH1 ∧ op 6 = Vm.SHL ∧ op 7 = Vm.SUB then
    some ([{ opcode := Op.PUSH1_PUSH1_PUSH1_SHL_SUB, arg := op 1 * 256 + op 3 },
           { opcode := Op.DATA, arg := op 5 }], 7)
  else if with_super_instructions ∧ pos + 4 < code.length ∧
      op 0 = Vm.AND ∧ op 1 = Vm.SWAP1 ∧ op 2 = Vm.POP ∧ op 3 = Vm.SWAP2 ∧ op 4 = Vm.SWAP1 then
    some ([{ opcode := Op.AND_SWAP1_POP_SWAP2_SWAP1, arg := 0 }], 4)
  else if with_super_instructions ∧ pos + 4 < code.length ∧
      op 0 = Vm.ISZERO ∧ op 1 = Vm.PUSH2 ∧ op 4 = Vm.JUMPI then
    some ([{ opcode := Op.ISZERO_PUSH2_JUMPI, arg := op 2 * 256 + op 3 }], 4)
  else if with_super_instructions ∧ pos + 3 < code.length ∧
      op 0 = Vm.SWAP2 ∧ op 1 = Vm.SWAP1 ∧ op 2 = Vm.POP ∧ op 3 = Vm.JUMP then
    some ([{ opcode := Op.SWAP2_SWAP1_POP_JUMP, arg := 0 }], 3)
  else if with_super_instructions ∧ pos + 3 < code.length ∧
      op 0 = Vm.SWAP1 ∧ op 1 = Vm.POP ∧ op 2 = Vm.SWAP2 ∧ op 3 = Vm.SWAP1 then
    some ([{ opcode := Op.SWAP1_POP_SWAP2_SWAP1, arg := 0 }], 3)
  else if with_super_instructions ∧ pos + 3 < code.length ∧
      op 0 = Vm.POP ∧ op 1 = Vm.SWAP2 ∧ op 2 = Vm.SWAP1 ∧ op 3 = Vm.POP then
    some ([{ opcode := Op.POP_SWAP2_SWAP1_POP, arg := 0 }], 3)
  else if with_super_instructions ∧ pos + 3 < code.length ∧
      op 0 = Vm.PUSH2 ∧ op 3 = Vm.JUMP then
    some ([{ opcode := Op.PUSH2_JUMP, arg := op 1 * 256 + op 2 }], 3)
  else if with_super_instructions ∧ pos + 3 < code.length ∧
      op 0 = Vm.PUSH2 ∧ op 3 = Vm.JUMPI then
    some ([{ opcode := Op.PUSH2_JUMPI, arg := op 1 * 256 + op 2 }], 3)
  else if with_super_instructions ∧ pos + 3 < code.length ∧
      op 0 = Vm.PUSH1 ∧ op 2 = Vm.PUSH1 then
    some ([{ opcode := Op.PUSH1_PUSH1, arg := op 1 * 256 + op 3 }], 3)
  else if with_super_instructions ∧ pos + 2 < code.length ∧
      op 0 = Vm.PUSH1 ∧ op 2 = Vm.ADD then
    some ([{ opcode := Op.PUSH1_ADD, arg := op 1 }], 2)
  else if with_super_instructions ∧ pos + 2 < code.length ∧
      op 0 = Vm.PUSH1 ∧ op 2 = Vm.SHL then
    some ([{ opcode := Op.PUSH1_SHL, arg := op 1 }], 2)
  else if with_super_instructions ∧ pos + 2 < code.length ∧
      op 0 = Vm.PUSH1 ∧ op 2 = Vm.DUP1 then
    some ([{ opcode := Op.PUSH1_DUP1, arg := op 1 }], 2)
  else if with_super_instructions ∧ pos + 1 < code.length ∧
      op 0 = Vm.SWAP1 ∧ op 1 = Vm.POP then
    some ([{ opcode := Op.SWAP1_POP, arg := 0 }], 1)
  else if with_super_instructions ∧ pos + 1 < code.length ∧
      op 0 = Vm.POP ∧ op 1 = Vm.JUMP then
    some ([{ opcode := Op.POP_JUMP, arg := 0 }], 1)
  else if with_super_instructions ∧ pos + 1 < code.length ∧
      op 0 = Vm.POP ∧ op 1 = Vm.POP then
    some ([{ opcode := Op.POP_POP, arg := 0 }], 1)
  else if with_super_instructions ∧ pos + 1 < code.length ∧
      op 0 = Vm.SWAP2 ∧ op 1 = Vm.SWAP1 then
    some ([{ opcode := Op.SWAP2_SWAP1, arg := 0 }], 1)
  else if with_super_instructions ∧ pos + 1 < code.length ∧
      op 0 = Vm.SWAP2 ∧ op 1 = Vm.POP then
    some ([{ opcode := Op.SWAP2_POP, arg := 0 }], 1)
  else if with_super_instructions ∧ pos + 1 < code.length ∧
      op 0 = Vm.DUP2 ∧ op 1 = Vm.MSTORE then
    some ([{ opcode := Op.DUP2_MSTORE, arg := 0 }], 1)
  else if with_super_instructions ∧ pos + 1 < code.length ∧
      op 0 = Vm.DUP2 ∧ op 1 = Vm.LT then
    some ([{ opcode := Op.DUP2_LT, arg := 0 }], 1)
  else
    let opcode := byteAt code pos
    if opcode = Vm.PC then
      if pos > 2 ^ 16 then
        none
      else
        some ([{ opcode := Op.PC, arg := pos % 2 ^ 16 }], 0)
    else if Vm.PUSH1 ≤ opcode ∧ opcode ≤ Vm.PUSH32 then
      let n := opcode - Vm.PUSH1 + 1
      if code.length < pos + n + 2 then
        some ([{ opcode := Op.INVALID, arg := 0 }], 1)
      else
        some (pushInstructions pos n code, n)
    else
      some ([{ opcode := op_2_op opcode, arg := 0 }], 0)

/-- Outcome of `convert` in `converter.go`: a translated code sequence, the
error `unable to convert code, encountered targe block larger than input`, a
Go panic propagated out of `toInstructions`, or fuel exhaustion.  The last
case is an artifact of embedding the Go `for` loop with a fuel bound; the
lemma `convertLoop_ne_outOfFuel` shows it is never produced by `convert`,
whose fuel covers the worst case of one loop iteration per source byte. -/
inductive ConvResult where
  | ok : Code → ConvResult
  | error : ConvResult
  | panic : ConvResult
  | outOfFuel : ConvResult
deriving DecidableEq, Repr

/-- The conversion loop of `convert` (`converter.go`, lines 75-100), with the
scan cursor `i` and the output accumulator `res` made explicit and the loop
bounded by `fuel` iterations.  At a `JUMPDEST` byte the loop fails if the
output is already longer than `i`, otherwise it inserts a `JUMP_TO` (argument
narrowed to 16 bits) when the output is shorter, pads with `NOOP`s up to index
`i`, and appends a `JUMPDEST` there; at any other byte it appends the
instructions delivered by `toInstructions` and advances the cursor by
`inc + 1`. -/
def convertLoop (code : List Nat) (si : Bool) : Nat → Nat → Code → ConvResult
  | 0, i, res =>
    if i < code.length then ConvResult.outOfFuel else ConvResult.ok res
  | fuel + 1, i, res =>
    if i < code.length then
      if byteAt code i = Vm.JUMPDEST then
        if res.length > i then ConvResult.error
        else
          let res1 :=
            if res.length < i then res ++ [{ opcode := Op.JUMP_TO, arg := i % 2 ^ 16 }] else res
          let res2 := res1 ++ List.replicate (i - res1.length) { opcode := Op.NOOP, arg := 0 }
          convertLoop code si fuel (i + 1) (res2 ++ [{ opcode := Op.JUMPDEST, arg := 0 }])
      else
        match toInstructions i code si with
        | none => ConvResult.panic
        | some (instrs, inc) => convertLoop code si fuel (i + inc + 1) (res ++ instrs)
    else ConvResult.ok res

/-- The function `convert` of `converter.go`.  The loop advances the cursor by
at least one byte per iteration, so `code.length` iterations always suffice. -/
def convert (code : List Nat) (with_super_instructions : Bool) : ConvResult :=
  convertLoop code with_super_instructions code.length 0 []

/-- Trace of the `JUMPDEST` bytes reached by the conversion scan, paired with
the length the output accumulator has at that moment.  The recursion advances
the cursor and the mirrored output length exactly as `convertLoop` does, so a
pair `(p, L)` is recorded precisely when the scanner of `convert` reaches a
`JUMPDEST` byte at source offset `p` while the output holds `L` instructions. -/
def jumpdestEvents (code : List Nat) (si : Bool) : Nat → Nat → Nat → List (Nat × Nat)
  | 0, _, _ => []
  | fuel + 1, i, len =>
    if i < code.length then
      if byteAt code i = Vm.JUMPDEST then
        if len > i then [(i, len)]
        else (i, len) :: jumpdestEvents code si fuel (i + 1) (i + 1)
      else
        match toInstructions i code si with
        | none => []
        | some (instrs, inc) => jumpdestEvents code si fuel (i + inc + 1) (len + instrs.length)
    else []

/-- The scanned `JUMPDEST` events of a whole conversion run. -/
def jumpdestEventsOf (code : List Nat) (si : Bool) : List (Nat × Nat) :=
  jumpdestEvents code si code.length 0 0

/-!
## Translation cache (`Convert` in `converter.go`)
-/

/-- Cache key of the translation cache: contract address and source length. -/
structure cache_key where
  addr : Nat
  contract_length : Nat
deriving DecidableEq, Repr

/-- Cache entry: snapshot of the original bytes plus the translated code. -/
structure cache_val where
  oldCode : List Nat
  code : Code
deriving DecidableEq, Repr

/-- First known mutable-contract address (20-byte value as a number). -/
def changedAddress01 : Nat := 0xA7CC236F81b04c1058e9bfb70E0Ee9940e271676

/-- Second known mutable-contract address. -/
def changedAddress02 : Nat := 0xAD0FB83a110c3694faDa81e8B396716a610c4030

/-- Third known mutable-contract address. -/
def changedAddress03 : Nat := 0xA8B3C9f298877dD93F30E8Ed359956faE10E8797

/-- The Go map `cache` is modelled as a duplicate-free association list. -/
abbrev Cache := List (cache_key × cache_val)

/-- Map lookup `cache[key]`. -/
def cacheLookup (c : Cache) (k : cache_key) : Option cache_val :=
  (c.find? (fun e => e.1 == k)).map Prod.snd

/-- Map update `cache[key] = val` (replaces any previous binding). -/
def cacheInsert (c : Cache) (k : cache_key) (v : cache_val) : Cache :=
  (k, v) :: c.eraseP (fun e => e.1 == k)

/-- Byte comparison loop of `Convert` (`converter.go`, lines 44-50).  The Go
loop indexes `code[i]` for every `i` below `len(res.oldCode)`; entries are
only ever stored with `oldCode` equal to the candidate of the same key, whose
length is the key's length, so at every reachable call both slices have the
same length (with a longer cached slice Go would panic).  The zip performs
exactly the in-bounds comparisons. -/
def oldCodeMatches (oldCode code : List Nat) : Bool :=
  (oldCode.zip code).all (fun p => p.1 == p.2)

/-- Translation plus cache installation: the tail of `Convert` after a cache
miss or a forced re-translation (`converter.go`, lines 59-68). -/
def convertAndCache (key : cache_key) (code : List Nat) (with_super_instructions : Bool)
    (create : Bool) (cache : Cache) : ConvResult × Cache :=
  match convert code with_super_instructions with
  | ConvResult.ok resCode =>
    if create = false then
      (ConvResult.ok resCode, cacheInsert cache key { oldCode := code, code := resCode })
    else (ConvResult.ok resCode, cache)
  | r => (r, cache)

/-- The public entry `Convert` (`converter.go`, lines 35-69), with the global
cache passed and returned explicitly.  `blk` is only used by a commented-out
debug print in the source and is kept for fidelity. -/
def Convert (addr : Nat) (code : List Nat) (with_super_instructions : Bool)
    (blk : Nat) (create : Bool) (cache : Cache) : ConvResult × Cache :=
  let key : cache_key := { addr := addr, contract_length := code.length }
  match cacheLookup cache key with
  | some res =>
    if create = false then
      let isEqual :=
        if addr = changedAddress01 ∨ addr = changedAddress02 ∨ addr = changedAddress03 then
          oldCodeMatches res.oldCode code
        else true
      if isEqual then (ConvResult.ok res.code, cache)
      else convertAndCache key code with_super_instructions create cache
    else convertAndCache key code with_super_instructions create cache
  | none => convertAndCache key code with_super_instructions create cache

/-!
## Gas model (`gas.go`, supplied as an unnamed source part)
-/

/-- Placeholder price marking opcodes without a static price. -/
def UNKNOWN_GAS_PRICE : Nat := 999999

/-- EIP-2200 sentry gas (go-ethereum `params` package, external). -/
def SstoreSentryGasEIP2200 : Nat := 2300

/-- EIP-2200 SLOAD gas (go-ethereum `params`). -/
def SloadGasEIP2200 : Nat := 800

/-- EIP-2200 SSTORE gas for creating a slot (go-ethereum `params`). -/
def SstoreSetGasEIP2200 : Nat := 20000

/-- EIP-2200 SSTORE gas for updating an existing slot (go-ethereum `params`). -/
def SstoreResetGasEIP2200 : Nat := 5000

/-- EIP-2200 refund for clearing a slot (go-ethereum `params`). -/
def SstoreClearsScheduleRefundEIP2200 : Nat := 15000

/-- Static gas price of the plain (non-super) opcodes: the range checks and
the base cases of the `switch` in `getStaticGasPriceInternal`.  The Go
function is self-recursive, but only the super-instruction cases recurse and
they recurse exclusively on plain component opcodes handled here, so the base
part is split out and `getStaticGasPriceInternal` below is non-recursive. -/
def getStaticGasPriceBase (op : Nat) : Nat :=
  if Op.PUSH1 ≤ op ∧ op ≤ Op.PUSH32 then 3
  else if Op.DUP1 ≤ op ∧ op ≤ Op.DUP16 then 3
  else if Op.SWAP1 ≤ op ∧ op ≤ Op.SWAP16 then 3
  else if Op.LT ≤ op ∧ op ≤ Op.SAR then 3
  else if Op.COINBASE ≤ op ∧ op ≤ Op.CHAINID then 2
  else if op = Op.POP then 2
  else if op = Op.ADD then 3
  else if op = Op.SUB then 3
  else if op = Op.MUL then 5
  else if op = Op.DIV then 5
  else if op = Op.SDIV then 5
  else if op = Op.MOD then 5
  else if op = Op.SMOD then 5
  else if op = Op.ADDMOD then 8
  else if op = Op.MULMOD then 8
  else if op = Op.EXP then 10
  else if op = Op.SIGNEXTEND then 5
  else if op = Op.SHA3 then 30
  else if op = Op.ADDRESS then 2
  else if op = Op.BALANCE then 700
  else if op = Op.ORIGIN then 2
  else if op = Op.CALLER then 2
  else if op = Op.CALLVALUE then 2
  else if op = Op.CALLDATALOAD then 3
  else if op = Op.CALLDATASIZE then 2
  else if op = Op.CALLDATACOPY then 3
  else if op = Op.CODESIZE then 2
  else if op = Op.CODECOPY then 3
  else if op = Op.GASPRICE then 2
  else if op = Op.EXTCODESIZE then 700
  else if op = Op.EXTCODECOPY then 100
  else if op = Op.RETURNDATASIZE then 2
  else if op = Op.RETURNDATACOPY then 3
  else if op = Op.EXTCODEHASH then 700
  else if op = Op.BLOCKHASH then 20
  else if op = Op.SELFBALANCE then 5
  else if op = Op.BASEFEE then 2
  else if op = Op.MLOAD then 3
  else if op = Op.MSTORE then 3
  else if op = Op.MSTORE8 then 3
  else if op = Op.SLOAD then 800
  else if op = Op.SSTORE then 0
  else if op = Op.JUMP then 8
  else if op = Op.JUMPI then 10
  else if op = Op.JUMPDEST then 1
  else if op = Op.JUMP_TO then 0
  else if op = Op.PC then 2
  else if op = Op.MSIZE then 2
  else if op = Op.GAS then 2
  else if op = Op.LOG0 then 375
  else if op = Op.LOG1 then 750
  else if op = Op.LOG2 then 1125
  else if op = Op.LOG3 then 1500
  else if op = Op.LOG4 then 1875
  else if op = Op.CREATE then 32000
  else if op = Op.CREATE2 then 32000
  else if op = Op.CALL then 700
  else if op = Op.CALLCODE then 100
  else if op = Op.STATICCALL then 700
  else if op = Op.RETURN then 0
  else if op = Op.STOP then 0
  else if op = Op.REVERT then 0
  else if op = Op.INVALID then 0
  else if op = Op.DELEGATECALL then 700
  else if op = Op.SELFDESTRUCT then 0
  else UNKNOWN_GAS_PRICE

/-- The function `getStaticGasPriceInternal`: the super-instruction cases of
its `switch` sum the prices of their components via the local alias
`price := getStaticGasPriceInternal`; every such component is a plain opcode,
for which the recursive call reduces to `getStaticGasPriceBase`.  Checking the
super-instruction opcodes first is equivalent to the Go `switch`, as their
values are disjoint from every range and base case. -/
def getStaticGasPriceInternal (op : Nat) : Nat :=
  let price := getStaticGasPriceBase
  if op = Op.PUSH1_ADD then price Op.PUSH1 + price Op.ADD
  else if op = Op.PUSH1_SHL then price Op.PUSH1 + price Op.SHL
  else if op = Op.PUSH1_DUP1 then price Op.PUSH1 + price Op.DUP1
  else if op = Op.PUSH2_JUMP then price Op.PUSH2 + price Op.JUMP
  else if op = Op.PUSH2_JUMPI then price Op.PUSH2 + price Op.JUMPI
  else if op = Op.SWAP1_POP then price Op.SWAP1 + price Op.POP
  else if op = Op.SWAP2_POP then price Op.SWAP2 + price Op.POP
  else if op = Op.DUP2_MSTORE then price Op.DUP2 + price Op.MSTORE
  else if op = Op.DUP2_LT then price Op.DUP2 + price Op.LT
  else if op = Op.POP_JUMP then price Op.POP + price Op.JUMP
  else if op = Op.POP_POP then price Op.POP + price Op.POP
  else if op = Op.SWAP2_SWAP1 then price Op.SWAP2 + price Op.SWAP1
  else if op = Op.PUSH1_PUSH1 then price Op.PUSH1 + price Op.PUSH1
  else if op = Op.ISZERO_PUSH2_JUMPI then price Op.ISZERO + price Op.PUSH2 + price Op.JUMPI
  else if op = Op.PUSH1_PUSH4_DUP3 then price Op.PUSH1 + price Op.PUSH4 + price Op.DUP3
  else if op = Op.SWAP2_SWAP1_POP_JUMP then
    price Op.SWAP2 + price Op.SWAP1 + price Op.POP + price Op.JUMP
  else if op = Op.SWAP1_POP_SWAP2_SWAP1 then
    price Op.SWAP1 + price Op.POP + price Op.SWAP2 + price Op.SWAP1
  else if op = Op.POP_SWAP2_SWAP1_POP then
    price Op.POP + price Op.SWAP2 + price Op.SWAP1 + price Op.POP
  else if op = Op.AND_SWAP1_POP_SWAP2_SWAP1 then
    price Op.AND + price Op.SWAP1 + price Op.POP + price Op.SWAP2 + price Op.SWAP1
  else if op = Op.PUSH1_PUSH1_PUSH1_SHL_SUB then
    3 * price Op.PUSH1 + price Op.SHL + price Op.SUB
  else getStaticGasPriceBase op

/-- The static gas table filled by the package `init` loop:
`static_gas_prices[i] = getStaticGasPriceInternal(OpCode(i))`. -/
def static_gas_prices (op : Nat) : Nat := getStaticGasPriceInternal op

/-- The function `callGas` (EIP-150 forwarded-gas rule).  `availableGas` and
`base` are uint64 values, so the Go subtraction `availableGas - base` wraps
modulo `2 ^ 64`; `callCost` is the 256-bit stack argument, `IsUint64` becomes
`callCost < 2 ^ 64` and `Uint64()` the truncation `callCost % 2 ^ 64`. -/
def callGas (availableGas base : Nat) (callCost : Nat) : Nat :=
  let availableGas2 := (availableGas + 2 ^ 64 - base % 2 ^ 64) % 2 ^ 64
  let gas := availableGas2 - availableGas2 / 64
  if ¬callCost < 2 ^ 64 ∨ gas < callCost % 2 ^ 64 then gas
  else callCost % 2 ^ 64

/-!
## EIP-2200 SSTORE gas (`gasSStoreEIP2200`)
-/

/-- Execution status of a frame.  Modelled from the spec: the status enum
(`RUNNING`, `STOPPED`, `RETURNED`, `REVERTED`, `SUICIDED`, `OUT_OF_GAS`,
`ERROR`) is declared in a source file not among the analysed ones. -/
inductive Status where
  | RUNNING
  | STOPPED
  | RETURNED
  | REVERTED
  | SUICIDED
  | OUT_OF_GAS
  | ERROR
deriving DecidableEq, Repr

/-- The slice of the world-state facade `gasSStoreEIP2200` can observe or
modify, for the fixed contract address of the frame: current storage
(`GetState`), storage at transaction start (`GetCommittedState`), and the
refund counter.  Storage slot values are the 32-byte words `common.Hash`,
with the empty hash written `0`. -/
structure StateDB where
  storage : Nat → Nat
  committed : Nat → Nat
  refund : Int

/-- `StateDB.AddRefund`. -/
def StateDB.addRefund (db : StateDB) (n : Nat) : StateDB :=
  { db with refund := db.refund + n }

/-- `StateDB.SubRefund`. -/
def StateDB.subRefund (db : StateDB) (n : Nat) : StateDB :=
  { db with refund := db.refund - n }

/-- The part of the execution context read or written by `gasSStoreEIP2200`:
remaining gas, frame status, the two top stack words `x` (slot key,
`stack.Back(0)`) and `y` (new value, `stack.Back(1)`), and the state facade. -/
structure SStoreContext where
  gas : Nat
  status : Status
  x : Nat
  y : Nat
  stateDB : StateDB

/-- The function `gasSStoreEIP2200` (EIP-2200 SSTORE gas).  Returns the gas
cost or the sentry error, together with the updated context (status and
refund counter are the only mutations; the function never writes storage). -/
def gasSStoreEIP2200 (c : SStoreContext) : Except String Nat × SStoreContext :=
  if c.gas ≤ SstoreSentryGasEIP2200 then
    (Except.error "not enough gas for reentrancy sentry",
     { c with status := Status.OUT_OF_GAS })
  else
    let current := c.stateDB.storage c.x
    let value := c.y
    if current = value then
      (Except.ok SloadGasEIP2200, c)
    else
      let original := c.stateDB.committed c.x
      if original = current then
        if original = 0 then
          (Except.ok SstoreSetGasEIP2200, c)
        else
          let c :=
            if value = 0 then
              { c with stateDB := c.stateDB.addRefund SstoreClearsScheduleRefundEIP2200 }
            else c
          (Except.ok SstoreResetGasEIP2200, c)
      else
        let c :=
          if original ≠ 0 then
            if current = 0 then
              { c with stateDB := c.stateDB.subRefund SstoreClearsScheduleRefundEIP2200 }
            else if value = 0 then
              { c with stateDB := c.stateDB.addRefund SstoreClearsScheduleRefundEIP2200 }
            else c
          else c
        let c :=
          if original = value then
            if original = 0 then
              { c with stateDB :=
                  c.stateDB.addRefund (SstoreSetGasEIP2200 - SloadGasEIP2200) }
            else
              { c with stateDB :=
                  c.stateDB.addRefund (SstoreResetGasEIP2200 - SloadGasEIP2200) }
          else c
        (Except.ok SloadGasEIP2200, c)

/-!
## Hash cache (`hash_cache.go`)

The keccak function itself comes from `golang.org/x/crypto/sha3` (external to
the repository) and is a parameter `keccak` of every definition below.  The
doubly linked LRU list together with the index map of each input size is
represented as a list of `(key, hash)` entries in most-recently-used-first
order (`head` = first element, `tail` = last); the pre-allocated entry array
with its `nextFree` cursor appears as the comparison of the entry count
against the capacity.
-/

/-- The function `getHash` (`hash_cache.go`, lines 200-214): reset the
context's keccak hasher, write `data`, read the digest — i.e. compute the
keccak hash of `data`. -/
def getHash (keccak : List Nat → Nat) (data : List Nat) : Nat := keccak data

/-- The `HashCache` structure: LRU state for 32-byte and for 64-byte inputs,
plus hit/miss statistics. -/
structure HashCache where
  list32 : List (List Nat × Nat)
  capacity32 : Nat
  list64 : List (List Nat × Nat)
  capacity64 : Nat
  hit : Nat
  miss : Nat
deriving DecidableEq, Repr

/-- The function `newHashCache`: a cache of the given capacities, primed with
the hash of the all-zero input of each size so that the LRU list is never
empty. -/
def newHashCache (keccak : List Nat → Nat) (capacity32 capacity64 : Nat) : HashCache :=
  { list32 := [(List.replicate 32 0, keccak (List.replicate 32 0))]
    capacity32 := capacity32
    list64 := [(List.replicate 64 0, keccak (List.replicate 64 0))]
    capacity64 := capacity64
    hit := 0
    miss := 0 }

/-- LRU insertion at the front, mirroring `getFree32`/`getFree64` followed by
the front insertion: a fresh slab slot while entries remain below capacity,
otherwise the tail entry is evicted (removed from list and index). -/
def lruInsert (l : List (List Nat × Nat)) (cap : Nat) (key : List Nat) (h : Nat) :
    List (List Nat × Nat) :=
  if l.length < cap then (key, h) :: l
  else (key, h) :: l.dropLast

/-- The function `HashCache.getHash32` (`hash_cache.go`, lines 98-132).  The
caller guarantees `len(data) = 32`, so the copied key equals `data`.  On a
hit the entry moves to the front (a no-op when it already is the head); on a
miss the hash is computed, inserted at the front, and indexed. -/
def HashCache.getHash32 (keccak : List Nat → Nat) (hc : HashCache) (data : List Nat) :
    Nat × HashCache :=
  match hc.list32.find? (fun e => e.1 == data) with
  | some entry =>
    (entry.2,
     { hc with
        hit := hc.hit + 1
        list32 := (entry.1, entry.2) :: hc.list32.eraseP (fun e => e.1 == data) })
  | none =>
    let h := getHash keccak data
    (h, { hc with
            miss := hc.miss + 1
            list32 := lruInsert hc.list32 hc.capacity32 data h })

/-- The function `HashCache.getHash64` (`hash_cache.go`, lines 134-168). -/
def HashCache.getHash64 (keccak : List Nat → Nat) (hc : HashCache) (data : List Nat) :
    Nat × HashCache :=
  match hc.list64.find? (fun e => e.1 == data) with
  | some entry =>
    (entry.2,
     { hc with
        hit := hc.hit + 1
        list64 := (entry.1, entry.2) :: hc.list64.eraseP (fun e => e.1 == data) })
  | none =>
    let h := getHash keccak data
    (h, { hc with
            miss := hc.miss + 1
            list64 := lruInsert hc.list64 hc.capacity64 data h })

/-- The method `HashCache.hash` (`hash_cache.go`, lines 85-96): the cache is
consulted for inputs of size 32 or 64; anything else is hashed directly. -/
def HashCache.hash (keccak : List Nat → Nat) (hc : HashCache) (data : List Nat) :
    Nat × HashCache :=
  if data.length = 32 then HashCache.getHash32 keccak hc data
  else if data.length = 64 then HashCache.getHash64 keccak hc data
  else (getHash keccak data, { hc with miss := hc.miss + 1 })

/-- Hash-cache states reachable by the program: a fresh `newHashCache`
followed by any sequence of `hash` calls. -/
inductive HashCache.Reachable (keccak : List Nat → Nat) : HashCache → Prop where
  | init : ∀ capacity32 capacity64,
      HashCache.Reachable keccak (newHashCache keccak capacity32 capacity64)
  | step : ∀ hc data, HashCache.Reachable keccak hc →
      HashCache.Reachable keccak (HashCache.hash keccak hc data).2

/-!
## Theorems
-/

/-- Coherence of a hash-cache state: every stored entry maps its key to that
key's keccak hash. -/
def HashCache.Coherent (keccak : List Nat → Nat) (hc : HashCache) : Prop :=
  (∀ e ∈ hc.list32, e.2 = keccak e.1) ∧ (∀ e ∈ hc.list64, e.2 = keccak e.1)

/-- Decomposition of each super-instruction opcode into its component opcodes,
read off the super-instruction names (spec, section 3). -/
def superInstructionComponents : List (Nat × List Nat) :=
  [(Op.PUSH1_ADD, [Op.PUSH1, Op.ADD]),
   (Op.PUSH1_SHL, [Op.PUSH1, Op.SHL]),
   (Op.PUSH1_DUP1, [Op.PUSH1, Op.DUP1]),
   (Op.PUSH2_JUMP, [Op.PUSH2, Op.JUMP]),
   (Op.PUSH2_JUMPI, [Op.PUSH2, Op.JUMPI]),
   (Op.SWAP1_POP, [Op.SWAP1, Op.POP]),
   (Op.SWAP2_POP, [Op.SWAP2, Op.POP]),
   (Op.SWAP2_SWAP1, [Op.SWAP2, Op.SWAP1]),
   (Op.POP_POP, [Op.POP, Op.POP]),
   (Op.POP_JUMP, [Op.POP, Op.JUMP]),
   (Op.DUP2_MSTORE, [Op.DUP2, Op.MSTORE]),
   (Op.DUP2_LT, [Op.DUP2, Op.LT]),
   (Op.ISZERO_PUSH2_JUMPI, [Op.ISZERO, Op.PUSH2, Op.JUMPI]),
   (Op.SWAP2_SWAP1_POP_JUMP, [Op.SWAP2, Op.SWAP1, Op.POP, Op.JUMP]),
   (Op.SWAP1_POP_SWAP2_SWAP1, [Op.SWAP1, Op.POP, Op.SWAP2, Op.SWAP1]),
   (Op.POP_SWAP2_SWAP1_POP, [Op.POP, Op.SWAP2, Op.SWAP1, Op.POP]),
   (Op.AND_SWAP1_POP_SWAP2_SWAP1, [Op.AND, Op.SWAP1, Op.POP, Op.SWAP2, Op.SWAP1]),
   (Op.PUSH1_PUSH1, [Op.PUSH1, Op.PUSH1]),
   (Op.PUSH1_PUSH4_DUP3, [Op.PUSH1, Op.PUSH4, Op.DUP3]),
   (Op.PUSH1_PUSH1_PUSH1_SHL_SUB, [Op.PUSH1, Op.PUSH1, Op.PUSH1, Op.SHL, Op.SUB])]

/-- C8: for every super-instruction opcode, the static gas table entry equals
the sum of the static gas prices of its component opcodes. -/
theorem C8_super_instruction_static_gas_is_component_sum :
    ∀ p ∈ superInstructionComponents,
      static_gas_prices p.1 = (p.2.map static_gas_prices).sum := by decide

/-- Witness for C8 at the super-instruction `PUSH1_ADD`. -/
theorem C8_witness :
    static_gas_prices Op.PUSH1_ADD = ([Op.PUSH1, Op.ADD].map static_gas_prices).sum :=
  C8_super_instruction_static_gas_is_component_sum (Op.PUSH1_ADD, [Op.PUSH1, Op.ADD])
    (by decide)

/-- C9: with `base ≤ availableGas` (both uint64 values), `callGas` returns
`min callCost (A - A/64)` for `A = availableGas - base`, and whenever
`callCost` does not fit in 64 bits it returns the cap `A - A/64`. -/
theorem C9_callGas_eip150 (availableGas base callCost : Nat)
    (hA : availableGas < 2 ^ 64) (hBase : base ≤ availableGas) :
    callGas availableGas base callCost =
      min callCost (availableGas - base - (availableGas - base) / 64) ∧
    (2 ^ 64 ≤ callCost →
      callGas availableGas base callCost =
        availableGas - base - (availableGas - base) / 64) := by
  have h64 : (2 : Nat) ^ 64 = 18446744073709551616 := by norm_num
  rw [h64] at hA
  simp only [callGas, h64]
  split_ifs with h
  · rcases h with h | h <;> omega
  · push_neg at h
    omega

/-- Witness for C9: forwarding is capped at `A - A/64 = 63` when 64 gas units
remain and the requested cost is huge. -/
theorem C9_witness :
    callGas 100 36 (2 ^ 64) = min (2 ^ 64) (100 - 36 - (100 - 36) / 64) ∧
    (2 ^ 64 ≤ 2 ^ 64 → callGas 100 36 (2 ^ 64) = 100 - 36 - (100 - 36) / 64) :=
  C9_callGas_eip150 100 36 (2 ^ 64) (by norm_num) (by norm_num)

/-- C3: with the sentry passed (`gas > 2300`), the EIP-2200 SSTORE gas
computation returns `SloadGas` on a no-op write, `SstoreSetGas` on creating a
clean slot, `SstoreResetGas` on overwriting a clean non-empty slot (adding the
clearing refund when the new value is zero), and `SloadGas` in the dirty case
with the refund counter adjusted by: minus the clearing refund when the
original is non-zero and the current value is zero, plus the clearing refund
when the original is non-zero and the new value is zero, and plus
`SstoreSetGas - SloadGas` (original zero) or `SstoreResetGas - SloadGas`
(original non-zero) when the new value equals the original.  The cases follow
the sequential clause order of EIP-2200. -/
theorem C3_gasSStoreEIP2200_cases (c : SStoreContext)
    (h : SstoreSentryGasEIP2200 < c.gas) :
    (c.stateDB.storage c.x = c.y →
      gasSStoreEIP2200 c = (Except.ok SloadGasEIP2200, c)) ∧
    (c.stateDB.storage c.x ≠ c.y →
      c.stateDB.committed c.x = c.stateDB.storage c.x →
      c.stateDB.committed c.x = 0 →
      gasSStoreEIP2200 c = (Except.ok SstoreSetGasEIP2200, c)) ∧
    (c.stateDB.storage c.x ≠ c.y →
      c.stateDB.committed c.x = c.stateDB.storage c.x →
      c.stateDB.committed c.x ≠ 0 →
      (gasSStoreEIP2200 c).1 = Except.ok SstoreResetGasEIP2200 ∧
      (gasSStoreEIP2200 c).2.stateDB.refund =
        c.stateDB.refund +
          (if c.y = 0 then (SstoreClearsScheduleRefundEIP2200 : Int) else 0)) ∧
    (c.stateDB.storage c.x ≠ c.y →
      c.stateDB.committed c.x ≠ c.stateDB.storage c.x →
      (gasSStoreEIP2200 c).1 = Except.ok SloadGasEIP2200 ∧
      (gasSStoreEIP2200 c).2.stateDB.refund =
        c.stateDB.refund
          + (if c.stateDB.committed c.x ≠ 0 ∧ c.stateDB.storage c.x = 0 then
               -(SstoreClearsScheduleRefundEIP2200 : Int) else 0)
          + (if c.stateDB.committed c.x ≠ 0 ∧ c.y = 0 then
               (SstoreClearsScheduleRefundEIP2200 : Int) else 0)
          + (if c.stateDB.committed c.x = c.y then
               (if c.stateDB.committed c.x = 0 then
                  ((SstoreSetGasEIP2200 - SloadGasEIP2200 : Nat) : Int)
                else ((SstoreResetGasEIP2200 - SloadGasEIP2200 : Nat) : Int))
             else 0)) := by
  have hg : ¬ c.gas ≤ SstoreSentryGasEIP2200 := not_le.mpr h
  refine ⟨fun h1 => ?_, fun h1 h2 h3 => ?_, fun h1 h2 h3 => ?_, fun h1 h2 => ?_⟩
  · simp only [gasSStoreEIP2200]
    rw [if_neg hg, if_pos h1]
  · simp only [gasSStoreEIP2200]
    rw [if_neg hg, if_neg h1, if_pos h2, if_pos h3]
  · simp only [gasSStoreEIP2200]
    rw [if_neg hg, if_neg h1, if_pos h2, if_neg h3]
    by_cases hv : c.y = 0 <;> simp [hv, StateDB.addRefund]
  · simp only [gasSStoreEIP2200]
    rw [if_neg hg, if_neg h1, if_neg h2]
    refine ⟨rfl, ?_⟩
    simp only [StateDB.addRefund, StateDB.subRefund]
    split_ifs <;> simp <;> omega

/-- Witness for C3: a clean-slot creation (`original = current = 0`,
`value = 1`) with 2301 gas costs `SstoreSetGas` and leaves the context
untouched. -/
theorem C3_witness :
    gasSStoreEIP2200
        { gas := 2301, status := Status.RUNNING, x := 0, y := 1,
          stateDB := { storage := fun _ => 0, committed := fun _ => 0, refund := 0 } } =
      (Except.ok SstoreSetGasEIP2200,
       { gas := 2301, status := Status.RUNNING, x := 0, y := 1,
         stateDB := { storage := fun _ => 0, committed := fun _ => 0, refund := 0 } }) :=
  (C3_gasSStoreEIP2200_cases _ (by decide)).2.1 (by decide) rfl rfl

/-- C4: an SSTORE reached with `gas ≤ 2300` fails the sentry: the gas
computation returns an error, sets the frame status to `OUT_OF_GAS`, and
leaves the state facade — storage, committed storage and refund counter —
untouched. -/
theorem C4_gasSStoreEIP2200_sentry (c : SStoreContext) (h : c.gas ≤ 2300) :
    gasSStoreEIP2200 c =
      (Except.error "not enough gas for reentrancy sentry",
       { c with status := Status.OUT_OF_GAS }) ∧
    (gasSStoreEIP2200 c).2.stateDB = c.stateDB := by
  have hg : c.gas ≤ SstoreSentryGasEIP2200 := h
  constructor
  · simp only [gasSStoreEIP2200]
    rw [if_pos hg]
  · simp only [gasSStoreEIP2200]
    rw [if_pos hg]

/-- Witness for C4 at a concrete context holding exactly 2300 gas. -/
theorem C4_witness :
    gasSStoreEIP2200
        { gas := 2300, status := Status.RUNNING, x := 5, y := 7,
          stateDB := { storage := fun _ => 1, committed := fun _ => 2, refund := 3 } } =
      (Except.error "not enough gas for reentrancy sentry",
       { gas := 2300, status := Status.OUT_OF_GAS, x := 5, y := 7,
         stateDB := { storage := fun _ => 1, committed := fun _ => 2, refund := 3 } }) ∧
    (gasSStoreEIP2200
        { gas := 2300, status := Status.RUNNING, x := 5, y := 7,
          stateDB := { storage := fun _ => 1, committed := fun _ => 2, refund := 3 } }).2.stateDB =
      { storage := fun _ => 1, committed := fun _ => 2, refund := 3 } :=
  C4_gasSStoreEIP2200_sentry _ (by norm_num)

/-- C6: in creation mode the translation cache is bypassed: for every prior
cache state, `Convert` returns exactly a fresh translation of the input and
leaves the cache mapping unchanged. -/
theorem C6_create_mode_bypasses_cache (addr : Nat) (code : List Nat) (si : Bool)
    (blk : Nat) (cache : Cache) :
    Convert addr code si blk true cache = (convert code si, cache) := by
  unfold Convert convertAndCache
  cases h : cacheLookup cache { addr := addr, contract_length := code.length } <;>
    cases hc : convert code si <;> simp [h, hc]

/-- C5 counterexample: a non-creation `Convert` on the first known
mutable-contract address hits the cache, finds the cached original byte `0x00`
different from the candidate byte `0x01`, re-translates — and *does* replace
the cache entry: the mapping for the hit key differs after the call. -/
theorem C5_counterexample :
    cacheLookup
        (Convert changedAddress01 [1] false 0 false
          [({ addr := changedAddress01, contract_length := 1 },
            { oldCode := [0], code := [] })]).2
        { addr := changedAddress01, contract_length := 1 } ≠
      cacheLookup
        [({ addr := changedAddress01, contract_length := 1 },
          { oldCode := [0], code := [] })]
        { addr := changedAddress01, contract_length := 1 } := by decide

/-- C5 (amended): on a cache hit at one of the three known mutable-contract
addresses with the cached original bytes differing from the candidate, the
code is re-translated and, when translation succeeds, the cache entry for the
key *is* replaced by the fresh snapshot and translation. -/
theorem C5_mismatch_retranslates_and_recaches (addr : Nat) (code : List Nat) (si : Bool)
    (blk : Nat) (cache : Cache) (res : cache_val)
    (hHit : cacheLookup cache { addr := addr, contract_length := code.length } = some res)
    (hAddr : addr = changedAddress01 ∨ addr = changedAddress02 ∨ addr = changedAddress03)
    (hMismatch : oldCodeMatches res.oldCode code = false)
    (t : Code) (hConv : convert code si = ConvResult.ok t) :
    Convert addr code si blk false cache =
      (ConvResult.ok t,
       cacheInsert cache { addr := addr, contract_length := code.length }
         { oldCode := code, code := t }) := by
  unfold Convert convertAndCache
  simp only [hHit, if_pos hAddr, hMismatch, hConv]
  simp

/-- Witness for C5 at the counterexample's concrete input. -/
theorem C5_witness :
    Convert changedAddress01 [1] false 0 false
        [({ addr := changedAddress01, contract_length := 1 },
          { oldCode := [0], code := [] })] =
      (ConvResult.ok [{ opcode := Op.ADD, arg := 0 }],
       cacheInsert
         [({ addr := changedAddress01, contract_length := 1 },
           { oldCode := [0], code := [] })]
         { addr := changedAddress01, contract_length := 1 }
         { oldCode := [1], code := [{ opcode := Op.ADD, arg := 0 }] }) :=
  C5_mismatch_retranslates_and_recaches changedAddress01 [1] false 0
    [({ addr := changedAddress01, contract_length := 1 }, { oldCode := [0], code := [] })]
    { oldCode := [0], code := [] }
    (by decide) (Or.inl rfl) (by decide) [{ opcode := Op.ADD, arg := 0 }] (by decide)

/-- C2 counterexample.  First conjunct: for `PUSH1` at position 0 of the
two-byte code `60 05`, exactly `k = 1` immediate bytes remain after the opcode
byte — not fewer — yet a single `INVALID` is emitted, not a `PUSH`
instruction.  Second conjunct: for `PUSH2` at position 0 of `61 aa bb 00`,
all immediates are present and the claim predicts `⌈(k-1)/2⌉ = 1` trailing
`DATA` instruction; the translator emits the `PUSH` instruction alone. -/
theorem C2_counterexample :
    (toInstructions 0 [0x60, 0x05] false = some ([{ opcode := Op.INVALID, arg := 0 }], 1) ∧
      Op.INVALID ≠ Op.PUSH1) ∧
    (toInstructions 0 [0x61, 0xaa, 0xbb, 0x00] false =
        some ([{ opcode := Op.PUSH2, arg := 0xaabb }], 2) ∧
      ([{ opcode := Op.PUSH2, arg := 0xaabb }] : Code).length ≠ 2) := by decide

/-- Element shape of `pushInstructions`: slot `j` of the emitted sequence. -/
theorem pushInstructions_getElem (pos n : Nat) (code : List Nat) (j : Nat)
    (hj : j < n / 2 + n % 2) :
    (pushInstructions pos n code)[j]? =
      some { opcode := if j = 0 then Op.PUSH1 + (n - 1) else Op.DATA,
             arg := if n % 2 = 1 ∧ j = n / 2 then byteAt code (pos + n) * 256
                    else byteAt code (pos + 2 * j + 1) * 256
                          + byteAt code (pos + 2 * j + 2) } := by
  simp [pushInstructions, List.getElem?_map, List.getElem?_range, hj]

/-- C2 (amended): for a `PUSHk` opcode at source position `pos`, the
translator emits a single `INVALID` whenever fewer than `k + 1` bytes remain
after the opcode byte (it requires one byte beyond the immediates, so a push
whose immediates end exactly at the end of the code is treated as data);
otherwise it emits one `PUSH1 + (k-1)` instruction whose argument holds the
first two immediate bytes (the single byte shifted left by 8 when `k = 1`),
followed by exactly `⌈k/2⌉ - 1` `DATA` instructions holding the remaining
immediates two per slot (the last one holding a single byte shifted left by 8
when `k` is odd and `k > 1`). -/
theorem C2_pushk_translation (pos k : Nat) (code : List Nat)
    (hk1 : 1 ≤ k) (hk32 : k ≤ 32)
    (hop : byteAt code pos = Vm.PUSH1 + (k - 1)) :
    (code.length < pos + k + 2 →
      toInstructions pos code false = some ([{ opcode := Op.INVALID, arg := 0 }], 1)) ∧
    (pos + k + 2 ≤ code.length →
      toInstructions pos code false = some (pushInstructions pos k code, k) ∧
      (pushInstructions pos k code).length = (k + 1) / 2 ∧
      (pushInstructions pos k code)[0]? =
        some { opcode := Op.PUSH1 + (k - 1),
               arg := if k = 1 then byteAt code (pos + 1) * 256
                      else byteAt code (pos + 1) * 256 + byteAt code (pos + 2) } ∧
      (∀ j, 1 ≤ j → j < (k + 1) / 2 →
        (pushInstructions pos k code)[j]? =
          some { opcode := Op.DATA,
                 arg := if k % 2 = 1 ∧ j = k / 2 then byteAt code (pos + k) * 256
                        else byteAt code (pos + 2 * j + 1) * 256
                              + byteAt code (pos + 2 * j + 2) })) := by
  have hne : ¬ byteAt code pos = Vm.PC := by
    rw [hop]; simp only [Vm.PUSH1, Vm.PC]; omega
  have hrange : Vm.PUSH1 ≤ byteAt code pos ∧ byteAt code pos ≤ Vm.PUSH32 := by
    rw [hop]; simp only [Vm.PUSH1, Vm.PUSH32]; omega
  have hn : byteAt code pos - Vm.PUSH1 + 1 = k := by
    rw [hop]; simp only [Vm.PUSH1]; omega
  have hslots : k / 2 + k % 2 = (k + 1) / 2 := by omega
  have hunfold : toInstructions pos code false =
      if code.length < pos + k + 2 then some ([{ opcode := Op.INVALID, arg := 0 }], 1)
      else some (pushInstructions pos k code, k) := by
    simp only [toInstructions, Bool.false_eq_true, false_and, if_false]
    rw [if_neg hne, if_pos hrange, hn]
  constructor
  · intro hlen
    rw [hunfold, if_pos hlen]
  · intro hlen
    refine ⟨by rw [hunfold, if_neg (by omega)], ?_, ?_, ?_⟩
    · simp [pushInstructions, hslots]
    · rw [pushInstructions_getElem pos k code 0 (by omega)]
      by_cases hk : k = 1
      · simp [hk]
      · have hc : ¬ (k % 2 = 1 ∧ (0 : Nat) = k / 2) := by omega
        rw [if_pos rfl, if_neg hc, if_neg hk]
    · intro j hj1 hj2
      rw [pushInstructions_getElem pos k code j (by omega)]
      rw [if_neg (show ¬ j = 0 by omega)]


/-- Witness for C2: `PUSH1 05` with one trailing byte translates to a single
`PUSH1` instruction carrying `05 << 8` and no `DATA` instructions. -/
theorem C2_witness :
    toInstructions 0 [0x60, 0x05, 0x00] false =
      some (pushInstructions 0 1 [0x60, 0x05, 0x00], 1) ∧
    (pushInstructions 0 1 [0x60, 0x05, 0x00]).length = (1 + 1) / 2 ∧
    (pushInstructions 0 1 [0x60, 0x05, 0x00])[0]? =
      some { opcode := Op.PUSH1 + (1 - 1),
             arg := if 1 = 1 then byteAt [0x60, 0x05, 0x00] (0 + 1) * 256
                    else byteAt [0x60, 0x05, 0x00] (0 + 1) * 256
                          + byteAt [0x60, 0x05, 0x00] (0 + 2) } ∧
    (∀ j, 1 ≤ j → j < (1 + 1) / 2 →
      (pushInstructions 0 1 [0x60, 0x05, 0x00])[j]? =
        some { opcode := Op.DATA,
               arg := if 1 % 2 = 1 ∧ j = 1 / 2 then byteAt [0x60, 0x05, 0x00] (0 + 1) * 256
                      else byteAt [0x60, 0x05, 0x00] (0 + 2 * j + 1) * 256
                            + byteAt [0x60, 0x05, 0x00] (0 + 2 * j + 2) }) :=
  (C2_pushk_translation 0 1 [0x60, 0x05, 0x00] (by decide) (by decide) (by decide)).2
    (by decide)

/-- Byte access inside the replicated prefix of a code buffer. -/
theorem byteAt_replicate_append_lt (n b i : Nat) (tail : List Nat) (h : i < n) :
    byteAt (List.replicate n b ++ tail) i = b := by
  unfold byteAt
  rw [List.getD_eq_getElem?_getD, List.getElem?_append]
  simp [List.getElem?_replicate, h]

/-- Byte access just past the replicated prefix of a code buffer. -/
theorem byteAt_replicate_append_last (n b x : Nat) :
    byteAt (List.replicate n b ++ [x]) n = x := by
  unfold byteAt
  rw [List.getD_eq_getElem?_getD, List.getElem?_append]
  simp

/-- Exit of the conversion loop: once the cursor has passed the end of the
code the loop returns the accumulator, whatever fuel remains. -/
theorem convertLoop_done (code : List Nat) (si : Bool) (fuel i : Nat) (res : Code)
    (h : ¬ i < code.length) :
    convertLoop code si fuel i res = ConvResult.ok res := by
  cases fuel <;> simp only [convertLoop] <;> rw [if_neg h]

/-- Conversion of a code buffer made of `n` `JUMPDEST` bytes followed by a
single `PC` byte: every `JUMPDEST` translates in place, and for `n ≤ 2 ^ 16`
the `PC` at source position `n` passes the panic guard (which only fires for
positions strictly above `2 ^ 16`) and is emitted with its position truncated
to 16 bits. -/
theorem convertLoop_replicate_jumpdest (n : Nat) (hn : n ≤ 2 ^ 16) :
    ∀ m i (res : Code) fuel,
      i + m = n →
      res.length = i →
      m + 1 ≤ fuel →
      convertLoop (List.replicate n Vm.JUMPDEST ++ [Vm.PC]) false fuel i res =
        ConvResult.ok (res ++ List.replicate m { opcode := Op.JUMPDEST, arg := 0 }
          ++ [{ opcode := Op.PC, arg := n % 2 ^ 16 }]) := by
  have hlen : (List.replicate n (Vm.JUMPDEST : Nat) ++ [Vm.PC]).length = n + 1 := by simp
  intro m
  induction m with
  | zero =>
    intro i res fuel h1 h2 h3
    have h4 : n = i := by omega
    subst h4
    obtain ⟨f, rfl⟩ : ∃ f, fuel = f + 1 := ⟨fuel - 1, by omega⟩
    have hbyte : byteAt (List.replicate n (Vm.JUMPDEST : Nat) ++ [Vm.PC]) n = Vm.PC :=
      byteAt_replicate_append_last n Vm.JUMPDEST Vm.PC
    have hguard : ¬ n > 2 ^ 16 := by omega
    have htine : toInstructions n (List.replicate n (Vm.JUMPDEST : Nat) ++ [Vm.PC]) false =
        some ([{ opcode := Op.PC, arg := n % 2 ^ 16 }], 0) := by
      simp [toInstructions, hbyte]
      omega
    simp only [convertLoop]
    rw [if_pos (show n < (List.replicate n (Vm.JUMPDEST : Nat) ++ [Vm.PC]).length by
          simp only [hlen]; omega)]
    rw [if_neg (show ¬ byteAt (List.replicate n (Vm.JUMPDEST : Nat) ++ [Vm.PC]) n =
          Vm.JUMPDEST by rw [hbyte]; decide)]
    rw [htine]
    dsimp only
    rw [convertLoop_done _ _ _ _ _ (by simp only [hlen]; omega)]
    simp
  | succ m ih =>
    intro i res fuel h1 h2 h3
    obtain ⟨f, rfl⟩ : ∃ f, fuel = f + 1 := ⟨fuel - 1, by omega⟩
    have hi : i < n := by omega
    have hbyte : byteAt (List.replicate n (Vm.JUMPDEST : Nat) ++ [Vm.PC]) i = Vm.JUMPDEST :=
      byteAt_replicate_append_lt n Vm.JUMPDEST i [Vm.PC] hi
    simp only [convertLoop]
    rw [if_pos (show i < (List.replicate n (Vm.JUMPDEST : Nat) ++ [Vm.PC]).length by
          simp only [hlen]; omega)]
    rw [if_pos hbyte]
    rw [if_neg (show ¬ res.length > i by omega)]
    rw [if_neg (show ¬ res.length < i by omega)]
    rw [show i - res.length = 0 by omega]
    simp only [List.replicate_zero, List.append_nil]
    rw [ih (i + 1) (res ++ [({ opcode := Op.JUMPDEST, arg := 0 } : Instruction)]) f
      (by omega) (by simp [h2]) (by omega)]
    simp [List.replicate_succ]

/-- C7 evaluation at the failing input: a source buffer of 65536 `JUMPDEST`
bytes followed by a `PC` opcode at byte offset 65536 (which is > 0xFFFF).
The guard in `toInstructions` fires only for positions strictly greater than
`1 << 16`, so instead of rejecting the translation the converter accepts it
and emits a `PC` instruction whose 16-bit argument has wrapped around to 0. -/
theorem C7_pc_at_position_65536_is_truncated_not_rejected :
    convert (List.replicate 65536 Vm.JUMPDEST ++ [Vm.PC]) false =
      ConvResult.ok (List.replicate 65536 { opcode := Op.JUMPDEST, arg := 0 }
        ++ [{ opcode := Op.PC, arg := 0 }]) := by
  unfold convert
  have hlen : (List.replicate 65536 (Vm.JUMPDEST : Nat) ++ [Vm.PC]).length = 65537 := by
    rw [List.length_append, List.length_replicate, List.length_singleton]
  rw [hlen]
  have h := convertLoop_replicate_jumpdest 65536 (by norm_num) 65536 0 [] 65537
    (by omega) rfl (by omega)
  rw [List.nil_append] at h
  rw [show (65536 % 2 ^ 16 : Nat) = 0 from by norm_num] at h
  exact h

set_option maxHeartbeats 4000000 in
/-- The instruction sequence emitted for one source instruction never exceeds
the number of consumed source bytes: every branch of `toInstructions` returns
at most `inc + 1` instructions. -/
theorem toInstructions_length_le (pos : Nat) (code : List Nat) (si : Bool)
    (l : Code) (inc : Nat) (h : toInstructions pos code si = some (l, inc)) :
    l.length ≤ inc + 1 := by
  unfold toInstructions at h
  repeat rw [ite_eq_iff] at h
  rcases h with ⟨-, h⟩ | ⟨-, ⟨-, h⟩ | ⟨-, ⟨-, h⟩ | ⟨-, ⟨-, h⟩ | ⟨-, ⟨-, h⟩ | ⟨-, ⟨-, h⟩ | ⟨-, ⟨-, h⟩ | ⟨-, ⟨-, h⟩ | ⟨-, ⟨-, h⟩ | ⟨-, ⟨-, h⟩ | ⟨-, ⟨-, h⟩ | ⟨-, ⟨-, h⟩ | ⟨-, ⟨-, h⟩ | ⟨-, ⟨-, h⟩ | ⟨-, ⟨-, h⟩ | ⟨-, ⟨-, h⟩ | ⟨-, ⟨-, h⟩ | ⟨-, ⟨-, h⟩ | ⟨-, ⟨-, h⟩ | ⟨-, ⟨-, h⟩ | ⟨-, ⟨-, ⟨-, h⟩ | ⟨-, h⟩⟩ | ⟨-, ⟨-, ⟨-, h⟩ | ⟨-, h⟩⟩ | ⟨-, h⟩⟩⟩⟩⟩⟩⟩⟩⟩⟩⟩⟩⟩⟩⟩⟩⟩⟩⟩⟩⟩⟩
  all_goals simp only [Option.some.injEq, Prod.mk.injEq, reduceCtorEq] at h
  all_goals obtain ⟨rfl, rfl⟩ := h
  all_goals simp [pushInstructions]
  all_goals omega

/-- Splitting of a list prefix below an append of two further segments. -/
theorem prefix_append_two {α : Type} (a b c : List α) : a <+: (a ++ b) ++ c :=
  (a.prefix_append b).trans ((a ++ b).prefix_append c)

/-- Splitting of a list prefix below an append of three further segments. -/
theorem prefix_append_three {α : Type} (a b c d : List α) : a <+: ((a ++ b) ++ c) ++ d :=
  (prefix_append_two a b c).trans (((a ++ b) ++ c).prefix_append d)

/-- Optional indexing below a list prefix. -/
theorem IsPrefix.getElem?_left {α : Type} {x y : List α} (h : x <+: y) {n : Nat}
    (hn : n < x.length) : y[n]? = x[n]? := by
  obtain ⟨t, rfl⟩ := h
  rw [List.getElem?_append]
  simp [hn]

/-- The conversion loop only ever appends to its accumulator. -/
theorem convertLoop_prefix (code : List Nat) (si : Bool) :
    ∀ fuel i (res out : Code),
      convertLoop code si fuel i res = ConvResult.ok out → res <+: out := by
  intro fuel
  induction fuel with
  | zero =>
    intro i res out h
    simp only [convertLoop] at h
    split_ifs at h <;> injection h with h' <;> subst h' <;> exact List.prefix_refl _
  | succ fuel ih =>
    intro i res out h
    simp only [convertLoop] at h
    split_ifs at h
    all_goals first
      | (injection h with h'
         subst h'
         exact List.prefix_refl _)
      | exact (prefix_append_three res _ _ _).trans (ih _ _ _ h)
      | exact (prefix_append_two res _ _).trans (ih _ _ _ h)
      | (rcases hti : toInstructions i code si with _ | ⟨instrs, inc⟩ <;> rw [hti] at h
         · injection h
         · exact (res.prefix_append instrs).trans (ih _ _ _ h))

/-- With the accumulator no longer than the cursor, the conversion loop never
returns the overshoot error: every step appends at most as many instructions
as it consumes source bytes, so the `JUMPDEST` check `len(res) > i` never
fires. -/
theorem convertLoop_no_error (code : List Nat) (si : Bool) :
    ∀ fuel i (res : Code), res.length ≤ i →
      convertLoop code si fuel i res ≠ ConvResult.error := by
  intro fuel
  induction fuel with
  | zero =>
    intro i res hres h
    simp only [convertLoop] at h
    split_ifs at h <;> injection h
  | succ fuel ih =>
    intro i res hres h
    simp only [convertLoop] at h
    split_ifs at h
    all_goals first
      | omega
      | injection h
      | exact ih _ _ (by
          simp only [List.length_append, List.length_replicate, List.length_cons,
            List.length_nil]
          omega) h
      | (rcases hti : toInstructions i code si with _ | ⟨instrs, inc⟩ <;> rw [hti] at h
         · injection h
         · have hb := toInstructions_length_le i code si instrs inc hti
           exact ih _ _ (by
             simp only [List.length_append]
             omega) h)

/-- Optional indexing at the position of a singleton appended to a list. -/
theorem getElem?_append_singleton {α : Type} (A : List α) (x : α) (n : Nat)
    (h : A.length = n) : (A ++ [x])[n]? = some x := by
  subst h
  rw [List.getElem?_append_right (le_refl _)]
  simp

/-- Soundness of the `JUMPDEST` scan: every recorded event `(p, L)` satisfies
`L ≤ p` (the output never overshoots a jump target), and whenever the
conversion run from the same state succeeds, the final output carries a
`JUMPDEST` instruction at index `p`. -/
theorem jumpdestEvents_sound (code : List Nat) (si : Bool) :
    ∀ fuel i (res : Code), res.length ≤ i →
      ∀ p L, (p, L) ∈ jumpdestEvents code si fuel i res.length →
        L ≤ p ∧ (∀ out, convertLoop code si fuel i res = ConvResult.ok out →
          out[p]? = some { opcode := Op.JUMPDEST, arg := 0 }) := by
  intro fuel
  induction fuel with
  | zero =>
    intro i res hres p L hmem
    simp [jumpdestEvents] at hmem
  | succ fuel ih =>
    intro i res hres p L hmem
    by_cases h1 : i < code.length
    case neg =>
      rw [jumpdestEvents, if_neg h1] at hmem
      simp at hmem
    case pos =>
      by_cases h2 : byteAt code i = Vm.JUMPDEST
      case pos =>
        have hno : ¬ res.length > i := by omega
        rw [jumpdestEvents, if_pos h1, if_pos h2, if_neg hno] at hmem
        by_cases hlt : res.length < i
        case pos =>
          have hstep : convertLoop code si (fuel + 1) i res =
              convertLoop code si fuel (i + 1)
                ((res ++ [({ opcode := Op.JUMP_TO, arg := i % 2 ^ 16 } : Instruction)] ++
                  List.replicate
                    (i - (res ++ [({ opcode := Op.JUMP_TO, arg := i % 2 ^ 16 } : Instruction)]).length)
                    ({ opcode := Op.NOOP, arg := 0 } : Instruction)) ++
                  [({ opcode := Op.JUMPDEST, arg := 0 } : Instruction)]) := by
            simp only [convertLoop, if_pos h1, if_pos h2, if_neg hno, if_pos hlt]
          have hA : (res ++ [({ opcode := Op.JUMP_TO, arg := i % 2 ^ 16 } : Instruction)] ++
              List.replicate
                (i - (res ++ [({ opcode := Op.JUMP_TO, arg := i % 2 ^ 16 } : Instruction)]).length)
                ({ opcode := Op.NOOP, arg := 0 } : Instruction)).length = i := by
            simp only [List.length_append, List.length_replicate, List.length_cons,
              List.length_nil]
            omega
          have hlen' : ((res ++ [({ opcode := Op.JUMP_TO, arg := i % 2 ^ 16 } : Instruction)] ++
              List.replicate
                (i - (res ++ [({ opcode := Op.JUMP_TO, arg := i % 2 ^ 16 } : Instruction)]).length)
                ({ opcode := Op.NOOP, arg := 0 } : Instruction)) ++
              [({ opcode := Op.JUMPDEST, arg := 0 } : Instruction)]).length = i + 1 := by
            rw [List.length_append, hA]
            rfl
          rcases List.mem_cons.mp hmem with heq | hmem'
          · have hp : p = i ∧ L = res.length := by simpa using heq
            obtain ⟨rfl, rfl⟩ : i = p ∧ res.length = L := ⟨hp.1.symm, hp.2.symm⟩
            refine ⟨hres, ?_⟩
            intro out hok
            rw [hstep] at hok
            have hpre := convertLoop_prefix code si fuel (i + 1) _ out hok
            rw [IsPrefix.getElem?_left hpre (by rw [hlen']; omega)]
            exact getElem?_append_singleton _ _ _ hA
          · have H := ih (i + 1) _ (by rw [hlen']) p L (by rw [hlen']; exact hmem')
            refine ⟨H.1, ?_⟩
            intro out hok
            rw [hstep] at hok
            exact H.2 out hok
        case neg =>
          have hstep : convertLoop code si (fuel + 1) i res =
              convertLoop code si fuel (i + 1)
                ((res ++ List.replicate (i - res.length) ({ opcode := Op.NOOP, arg := 0 } : Instruction)) ++
                  [({ opcode := Op.JUMPDEST, arg := 0 } : Instruction)]) := by
            simp only [convertLoop, if_pos h1, if_pos h2, if_neg hno, if_neg hlt]
          have hA : (res ++ List.replicate (i - res.length)
              ({ opcode := Op.NOOP, arg := 0 } : Instruction)).length = i := by
            simp only [List.length_append, List.length_replicate]
            omega
          have hlen' : ((res ++ List.replicate (i - res.length)
              ({ opcode := Op.NOOP, arg := 0 } : Instruction)) ++
              [({ opcode := Op.JUMPDEST, arg := 0 } : Instruction)]).length = i + 1 := by
            rw [List.length_append, hA]
            rfl
          rcases List.mem_cons.mp hmem with heq | hmem'
          · have hp : p = i ∧ L = res.length := by simpa using heq
            obtain ⟨rfl, rfl⟩ : i = p ∧ res.length = L := ⟨hp.1.symm, hp.2.symm⟩
            refine ⟨hres, ?_⟩
            intro out hok
            rw [hstep] at hok
            have hpre := convertLoop_prefix code si fuel (i + 1) _ out hok
            rw [IsPrefix.getElem?_left hpre (by rw [hlen']; omega)]
            exact getElem?_append_singleton _ _ _ hA
          · have H := ih (i + 1) _ (by rw [hlen']) p L (by rw [hlen']; exact hmem')
            refine ⟨H.1, ?_⟩
            intro out hok
            rw [hstep] at hok
            exact H.2 out hok
      case neg =>
        rcases hti : toInstructions i code si with _ | ⟨instrs, inc⟩
        · rw [jumpdestEvents, if_pos h1, if_neg h2, hti] at hmem
          simp at hmem
        · rw [jumpdestEvents, if_pos h1, if_neg h2, hti] at hmem
          have hstep : convertLoop code si (fuel + 1) i res =
              convertLoop code si fuel (i + inc + 1) (res ++ instrs) := by
            simp only [convertLoop, if_pos h1, if_neg h2, hti]
          have hb := toInstructions_length_le i code si instrs inc hti
          have hres2 : (res ++ instrs).length ≤ i + inc + 1 := by
            simp only [List.length_append]
            omega
          have H := ih (i + inc + 1) (res ++ instrs) hres2 p L
            (by rw [List.length_append]; exact hmem)
          refine ⟨H.1, ?_⟩
          intro out hok
          rw [hstep] at hok
          exact H.2 out hok

/-- Fuel adequacy: with at least one unit of fuel per remaining source byte
the conversion loop never runs out, so `convert` (which supplies
`code.length`) behaves as the unbounded Go loop. -/
theorem convertLoop_ne_outOfFuel (code : List Nat) (si : Bool) :
    ∀ fuel i (res : Code), code.length ≤ i + fuel →
      convertLoop code si fuel i res ≠ ConvResult.outOfFuel := by
  intro fuel
  induction fuel with
  | zero =>
    intro i res hfuel h
    simp only [convertLoop] at h
    rw [if_neg (by omega)] at h
    injection h
  | succ fuel ih =>
    intro i res hfuel h
    simp only [convertLoop] at h
    split_ifs at h
    all_goals first
      | injection h
      | exact ih _ _ (by omega) h
      | (rcases hti : toInstructions i code si with _ | ⟨instrs, inc⟩ <;> rw [hti] at h
         · injection h
         · exact ih _ _ (by omega) h)

/-- C1: for every source bytecode and either super-instruction setting, (a)
whenever `convert` succeeds, every `JUMPDEST` byte reached by the scanner at
an instruction boundary, at source offset `p`, yields an instruction with
opcode `JUMPDEST` at output index `p`; and (b) `convert` returns its error
exactly when the scanner reaches such a byte while the output already holds
more than `p` instructions — and since the output can never overtake the
scan cursor, neither side of (b) ever occurs. -/
theorem C1_jumpdest_alignment (code : List Nat) (si : Bool) :
    (∀ out, convert code si = ConvResult.ok out →
      ∀ p L, (p, L) ∈ jumpdestEventsOf code si →
        out[p]?.map Instruction.opcode = some Op.JUMPDEST) ∧
    (convert code si = ConvResult.error ↔
      ∃ p L, (p, L) ∈ jumpdestEventsOf code si ∧ p < L) := by
  constructor
  · intro out hok p L hmem
    have H := (jumpdestEvents_sound code si code.length 0 [] (by simp) p L hmem).2 out hok
    rw [H]
    rfl
  · constructor
    · intro h
      exact absurd h (convertLoop_no_error code si code.length 0 [] (by simp))
    · rintro ⟨p, L, hmem, hlt⟩
      have := (jumpdestEvents_sound code si code.length 0 [] (by simp) p L hmem).1
      omega

/-- Witness for C1: translating `PUSH1 05; JUMPDEST` succeeds, the scanner
reaches the `JUMPDEST` at offset 2, and the output holds `JUMPDEST` at
index 2 (after a `JUMP_TO` placed over the immediate position). -/
theorem C1_witness :
    ([{ opcode := Op.PUSH1, arg := 0x0500 }, { opcode := Op.JUMP_TO, arg := 2 },
      { opcode := Op.JUMPDEST, arg := 0 }] : Code)[2]?.map Instruction.opcode =
      some Op.JUMPDEST :=
  (C1_jumpdest_alignment [0x60, 0x05, 0x5b] false).1
    [{ opcode := Op.PUSH1, arg := 0x0500 }, { opcode := Op.JUMP_TO, arg := 2 },
      { opcode := Op.JUMPDEST, arg := 0 }]
    (by decide) 2 1 (by decide)

/-- A fresh cache is coherent: it holds exactly the hashes of the two all-zero
inputs. -/
theorem newHashCache_coherent (keccak : List Nat → Nat) (capacity32 capacity64 : Nat) :
    HashCache.Coherent keccak (newHashCache keccak capacity32 capacity64) := by
  constructor <;> intro e he <;> simp [newHashCache] at he <;> simp [he]

/-- One `hash` call on a coherent cache returns exactly the keccak hash of the
input and leaves the cache coherent. -/
theorem HashCache.hash_correct (keccak : List Nat → Nat) (hc : HashCache)
    (h : HashCache.Coherent keccak hc) (data : List Nat) :
    (HashCache.hash keccak hc data).1 = getHash keccak data ∧
    HashCache.Coherent keccak (HashCache.hash keccak hc data).2 := by
  obtain ⟨h32, h64⟩ := h
  unfold HashCache.hash
  split_ifs with hd32 hd64
  · unfold HashCache.getHash32
    rcases hfind : hc.list32.find? (fun e => e.1 == data) with _ | entry <;>
      simp only [hfind]
    · refine ⟨trivial, ?_, ?_⟩ <;> intro e he <;> unfold lruInsert at he
      · split_ifs at he <;> rcases List.mem_cons.mp he with rfl | he'
        · rfl
        · exact h32 e he'
        · rfl
        · exact h32 e ((List.dropLast_sublist hc.list32).mem he')
      · exact h64 e he
    · have hkey : entry.1 = data := by
        have := List.find?_some hfind
        simpa using this
      have hmem : entry ∈ hc.list32 := List.mem_of_find?_eq_some hfind
      refine ⟨?_, ?_, ?_⟩
      · rw [h32 entry hmem, hkey]
        rfl
      · intro e he
        rcases List.mem_cons.mp he with rfl | he'
        · exact h32 entry hmem
        · exact h32 e ((List.eraseP_sublist hc.list32).mem he')
      · intro e he
        exact h64 e he
  · unfold HashCache.getHash64
    rcases hfind : hc.list64.find? (fun e => e.1 == data) with _ | entry <;>
      simp only [hfind]
    · refine ⟨trivial, ?_, ?_⟩ <;> intro e he
      · exact h32 e he
      · unfold lruInsert at he
        split_ifs at he <;> rcases List.mem_cons.mp he with rfl | he'
        · rfl
        · exact h64 e he'
        · rfl
        · exact h64 e ((List.dropLast_sublist hc.list64).mem he')
    · have hkey : entry.1 = data := by
        have := List.find?_some hfind
        simpa using this
      have hmem : entry ∈ hc.list64 := List.mem_of_find?_eq_some hfind
      refine ⟨?_, ?_, ?_⟩
      · rw [h64 entry hmem, hkey]
        rfl
      · intro e he
        exact h32 e he
      · intro e he
        rcases List.mem_cons.mp he with rfl | he'
        · exact h64 entry hmem
        · exact h64 e ((List.eraseP_sublist hc.list64).mem he')
  · exact ⟨rfl, h32, h64⟩

/-- Every reachable hash-cache state is coherent. -/
theorem HashCache.Reachable.coherent {keccak : List Nat → Nat} {hc : HashCache}
    (h : HashCache.Reachable keccak hc) : HashCache.Coherent keccak hc := by
  induction h with
  | init capacity32 capacity64 => exact newHashCache_coherent keccak capacity32 capacity64
  | step hc data _ ih => exact (HashCache.hash_correct keccak hc ih data).2

/-- C10: on every reachable cache state, `HashCache.hash` returns exactly the
keccak digest of the input, i.e. the same value `getHash` computes directly;
hits, LRU reordering, insertions and evictions never change the returned
value. -/
theorem C10_hash_cache_returns_keccak (keccak : List Nat → Nat) (hc : HashCache)
    (h : HashCache.Reachable keccak hc) (data : List Nat) :
    (HashCache.hash keccak hc data).1 = getHash keccak data :=
  (HashCache.hash_correct keccak hc h.coherent data).1

/-- Witness for C10: hashing a 1-byte input on a fresh cache of capacities 1
returns the direct hash, for the stand-in hash function summing the bytes. -/
theorem C10_witness :
    (HashCache.hash (fun l => l.sum) (newHashCache (fun l => l.sum) 1 1) [5]).1 =
      getHash (fun l => l.sum) [5] :=
  C10_hash_cache_returns_keccak (fun l => l.sum) (newHashCache (fun l => l.sum) 1 1)
    (HashCache.Reachable.init 1 1) [5]
